import Mathlib

/-!
Verification development for the yandex_music_tui repository
(src/api.rs, src/player.rs, src/main.rs).

Shallow embedding conventions:
* Rust `u64`/`usize` values are modelled as `Nat` (all operations used by the
  embedded code are non-overflowing on the values the claims quantify over;
  the one underflow site, `Artists::fmt` on an empty list, is modelled as a
  panic).
* A Rust panic (`unwrap`, out-of-range index, arithmetic underflow) is
  modelled as `Option.none`: a computation that can panic returns `Option α`.
* Network and randomness are environment parameters: a function giving the
  outcome of each send attempt, the fetched track lists, or the random draw
  of each Fisher-Yates step.
-/

namespace YMusic

/-- `AlbumType` from api.rs: album category tag. -/
inductive AlbumType where
  | music
  | podcast
  deriving DecidableEq, Repr

/-- `AlbumInfo` from api.rs. -/
structure AlbumInfo where
  id : Nat
  title : String
  meta_type : AlbumType
  track_count : Nat
  likes_count : Option Nat
  deriving DecidableEq, Repr

/-- `ArtistInfo` from api.rs. -/
structure ArtistInfo where
  id : Nat
  name : String
  deriving DecidableEq, Repr

/-- `Major` from api.rs. -/
structure Major where
  id : Nat
  name : String
  deriving DecidableEq, Repr

/-- `Track` from api.rs. -/
structure Track where
  id : Nat
  title : String
  major : Option Major
  albums : List AlbumInfo
  artists : List ArtistInfo
  duration : Option Nat
  deriving DecidableEq, Repr

/-- The spec-side "comma-separated artist names": the names joined by a
comma and a space. -/
def artistsBody : List String → String
  | [] => ""
  | [n] => n
  | n :: rest => n ++ ", " ++ artistsBody rest

/-- The writes performed by the loop of `Artists::fmt` in api.rs:
`for i in 0..self.len() - 1` appends entry `i` followed by a comma-space to
the formatter, and entry `self.len() - 1` is appended after the loop. -/
def fmtLoop (ns : List String) : String :=
  ((List.range (ns.length - 1)).foldl (fun acc i => acc ++ (ns.getD i "" ++ ", ")) "") ++
    ns.getD (ns.length - 1) ""

/-- `impl Display for Artists` in api.rs.  The index computation
`self.len() - 1` underflows for an empty artist list (a panic), so the
formatter is modelled as returning `none` there; otherwise it writes an
opening parenthesis, the loop's output, and a closing parenthesis. -/
def artistsFmt (artists : List ArtistInfo) : Option String :=
  match artists with
  | [] => none
  | l => some ("(" ++ fmtLoop (l.map ArtistInfo.name) ++ ")")

/-- `impl Display for Track` in api.rs: `write!(f, "{} {}", self.title,
Artists(&self.artists))`. -/
def trackFmt (t : Track) : Option String :=
  (artistsFmt t.artists).map (fun a => t.title ++ " " ++ a)

/-- The filter condition of `liked_music_tracks` in api.rs:
`track.albums[0].meta_type == AlbumType::Music`.  Indexing `albums[0]`
panics on an empty album list, hence `Option`. -/
def primaryIsMusic (t : Track) : Option Bool :=
  match t.albums with
  | [] => none
  | a :: _ => some (a.meta_type == AlbumType.music)

/-- `liked_music_tracks` in api.rs, applied to the already-fetched liked
track list: `tracks.filter(|track| track.albums[0].meta_type ==
AlbumType::Music)`.  Any track whose album list is empty makes the whole
filter panic (`none`). -/
def liked_music_tracks (tracks : List Track) : Option (List Track) :=
  match tracks with
  | [] => some []
  | t :: rest => do
      let b ← primaryIsMusic t
      let rest' ← liked_music_tracks rest
      return if b then t :: rest' else rest'

/-- The spec-side predicate for the filter law: the primary (first) album
reference has category music. -/
def primaryCategoryMusicSpec (t : Track) : Bool :=
  match t.albums.head? with
  | some a => a.meta_type == AlbumType.music
  | none => false

/-- One send attempt's outcome in `fetch_track` in api.rs: the transport
either fails on send, or a response arrives whose body parses to a track or
is malformed (`ok none`). -/
inductive SendOutcome where
  | err
  | ok (body : Option Track)
  deriving DecidableEq, Repr

/-- The `while left > 0` loop of `fetch_track` in api.rs.  `net i` is the
outcome of the i-th send attempt (0-based), `error` the saved last transport
error, `i` the number of attempts consumed so far, `left` the remaining
budget.  Returns the call's result (`none` is a panic: a malformed body hits
an `unwrap`, and exhausting a zero budget hits `error.unwrap()` with no
saved error) together with the number of attempts consumed. -/
def fetch_track_go (net : Nat → SendOutcome) (error : Option Unit) (i : Nat) :
    Nat → Option (Except Unit Track) × Nat
  | 0 => (error.map Except.error, i)
  | left + 1 =>
      match net i with
      | SendOutcome.ok none => (none, i + 1)
      | SendOutcome.ok (some t) => (some (Except.ok t), i + 1)
      | SendOutcome.err => fetch_track_go net (some ()) (i + 1) left

/-- `fetch_track` in api.rs: `let mut left = attempts.unwrap_or(1)` then the
retry loop. -/
def fetch_track (net : Nat → SendOutcome) (attempts : Option Nat) :
    Option (Except Unit Track) × Nat :=
  fetch_track_go net none 0 (attempts.getD 1)

/-- 2^32, the modulus of 32-bit arithmetic in MD5. -/
def M32 : Nat := 4294967296

/-- The all-ones 32-bit word, used to express 32-bit complement as xor. -/
def mask32 : Nat := 4294967295

/-- 32-bit left rotation. -/
def rotl32 (x n : Nat) : Nat := ((x <<< n) ||| (x >>> (32 - n))) % M32

/-- The 64 MD5 round constants. -/
def md5K : List Nat :=
  [0xd76aa478, 0xe8c7b756, 0x242070db, 0xc1bdceee,
   0xf57c0faf, 0x4787c62a, 0xa8304613, 0xfd469501,
   0x698098d8, 0x8b44f7af, 0xffff5bb1, 0x895cd7be,
   0x6b901122, 0xfd987193, 0xa679438e, 0x49b40821,
   0xf61e2562, 0xc040b340, 0x265e5a51, 0xe9b6c7aa,
   0xd62f105d, 0x02441453, 0xd8a1e681, 0xe7d3fbc8,
   0x21e1cde6, 0xc33707d6, 0xf4d50d87, 0x455a14ed,
   0xa9e3e905, 0xfcefa3f8, 0x676f02d9, 0x8d2a4c8a,
   0xfffa3942, 0x8771f681, 0x6d9d6122, 0xfde5380c,
   0xa4beea44, 0x4bdecfa9, 0xf6bb4b60, 0xbebfbc70,
   0x289b7ec6, 0xeaa127fa, 0xd4ef3085, 0x04881d05,
   0xd9d4d039, 0xe6db99e5, 0x1fa27cf8, 0xc4ac5665,
   0xf4292244, 0x432aff97, 0xab9423a7, 0xfc93a039,
   0x655b59c3, 0x8f0ccc92, 0xffeff47d, 0x85845dd1,
   0x6fa87e4f, 0xfe2ce6e0, 0xa3014314, 0x4e0811a1,
   0xf7537e82, 0xbd3af235, 0x2ad7d2bb, 0xeb86d391]

/-- The 64 MD5 per-round shift amounts. -/
def md5S : List Nat :=
  [7, 12, 17, 22, 7, 12, 17, 22, 7, 12, 17, 22, 7, 12, 17, 22,
   5, 9, 14, 20, 5, 9, 14, 20, 5, 9, 14, 20, 5, 9, 14, 20,
   4, 11, 16, 23, 4, 11, 16, 23, 4, 11, 16, 23, 4, 11, 16, 23,
   6, 10, 15, 21, 6, 10, 15, 21, 6, 10, 15, 21, 6, 10, 15, 21]

/-- UTF-8 encoding of one unicode scalar value (as `str::as_bytes` yields). -/
def utf8EncodeCharNat (c : Nat) : List Nat :=
  if c < 128 then [c]
  else if c < 2048 then [192 ||| (c >>> 6), 128 ||| (c &&& 63)]
  else if c < 65536 then
    [224 ||| (c >>> 12), 128 ||| ((c >>> 6) &&& 63), 128 ||| (c &&& 63)]
  else
    [240 ||| (c >>> 18), 128 ||| ((c >>> 12) &&& 63),
     128 ||| ((c >>> 6) &&& 63), 128 ||| (c &&& 63)]

/-- The UTF-8 byte sequence of a string (Rust `str::as_bytes`). -/
def strBytes (s : String) : List Nat :=
  (s.data.map (fun c => utf8EncodeCharNat c.toNat)).flatten

/-- The `count` low-order bytes of `n`, little-endian. -/
def leBytes (n count : Nat) : List Nat :=
  (List.range count).map (fun i => (n >>> (8 * i)) % 256)

/-- MD5 padding: a 0x80 byte, zeros to 56 mod 64, then the bit length as a
64-bit little-endian quantity. -/
def md5Pad (msg : List Nat) : List Nat :=
  let zeros := (120 - ((msg.length + 1) % 64)) % 64
  msg ++ 128 :: (List.replicate zeros 0 ++ leBytes ((msg.length * 8) % 2 ^ 64) 8)

/-- Little-endian 32-bit word `j` of a 64-byte chunk. -/
def leWord (chunk : List Nat) (j : Nat) : Nat :=
  chunk.getD (4 * j) 0 + 256 * chunk.getD (4 * j + 1) 0 +
    65536 * chunk.getD (4 * j + 2) 0 + 16777216 * chunk.getD (4 * j + 3) 0

/-- The MD5 nonlinear function and message index for round `i`. -/
def md5FG (b c d i : Nat) : Nat × Nat :=
  if i < 16 then ((b &&& c) ||| ((b ^^^ mask32) &&& d), i)
  else if i < 32 then ((d &&& b) ||| ((d ^^^ mask32) &&& c), (5 * i + 1) % 16)
  else if i < 48 then (b ^^^ c ^^^ d, (3 * i + 5) % 16)
  else (c ^^^ (b ||| (d ^^^ mask32)), (7 * i) % 16)

/-- The four 32-bit registers of the MD5 state. -/
structure MD5State where
  a : Nat
  b : Nat
  c : Nat
  d : Nat
  deriving DecidableEq, Repr

/-- One MD5 round on the register state, with `Mw` the chunk's word table. -/
def md5Step (Mw : Nat → Nat) (st : MD5State) (i : Nat) : MD5State :=
  let fg := md5FG st.b st.c st.d i
  let tmp := (fg.1 + st.a + md5K.getD i 0 + Mw fg.2) % M32
  { a := st.d, b := (st.b + rotl32 tmp (md5S.getD i 0)) % M32, c := st.b, d := st.c }

/-- Process one 64-byte chunk: 64 rounds, then add into the running state. -/
def md5Chunk (st : MD5State) (chunk : List Nat) : MD5State :=
  let r := (List.range 64).foldl (md5Step (leWord chunk)) st
  { a := (st.a + r.a) % M32, b := (st.b + r.b) % M32,
    c := (st.c + r.c) % M32, d := (st.d + r.d) % M32 }

/-- The MD5 initial register values. -/
def md5Init : MD5State :=
  { a := 0x67452301, b := 0xefcdab89, c := 0x98badcfe, d := 0x10325476 }

/-- The 16-byte MD5 digest of a byte sequence. -/
def md5Digest (msg : List Nat) : List Nat :=
  let padded := md5Pad msg
  let st := ((List.range (padded.length / 64)).map
      (fun k => (padded.drop (64 * k)).take 64)).foldl md5Chunk md5Init
  leBytes st.a 4 ++ leBytes st.b 4 ++ leBytes st.c 4 ++ leBytes st.d 4

/-- Lower-case hex digit. -/
def hexChar (n : Nat) : Char :=
  "0123456789abcdef".data.getD n '0'

/-- Two-digit lower-case hex form of a byte. -/
def byteHex (b : Nat) : String :=
  String.mk [hexChar (b / 16), hexChar (b % 16)]

/-- `hex::encode` of a byte sequence. -/
def hexEncode (bytes : List Nat) : String :=
  String.join (bytes.map byteHex)

/-- Hex-encoded MD5 of a string's UTF-8 bytes, as computed by
`hex::encode(md5::compute(... .as_bytes()))` in api.rs. -/
def md5Hex (s : String) : String :=
  hexEncode (md5Digest (strBytes s))

/-- `get_child(name).get_text()` on the parsed signing-page XML document,
modelled as an association list from child element name to its text;
`unwrap` on a missing child is a panic (`none`). -/
def get_child (doc : List (String × String)) (name : String) : Option String :=
  (doc.find? (fun c => c.1 == name)).map Prod.snd

/-- The protocol constant of `direct_link` in api.rs. -/
def SECRET : String := "XGRlBW9FXlekgbPrRHuSiA"

/-- `direct_link` in api.rs, from the parsed signing-page document onward:
extract host, path, s, ts (each `unwrap` panics when missing), compute
`hex(md5(SECRET + path[1..] + s))` and format the final URL
`https://{host}/get-mp3/{sign}/{ts}{path}`.  Rust's `&path[1..]` drops the
first byte; for a path whose first character is the ASCII separator this is
the first character, modelled as `String.drop 1`. -/
def direct_link (doc : List (String × String)) : Option String := do
  let host ← get_child doc "host"
  let path ← get_child doc "path"
  let s ← get_child doc "s"
  let ts ← get_child doc "ts"
  let sign := md5Hex (SECRET ++ path.drop 1 ++ s)
  return "https://" ++ host ++ "/get-mp3/" ++ sign ++ "/" ++ ts ++ path

/-- The signing-page document holding exactly the four required fields. -/
def signingDoc (h p s ts : String) : List (String × String) :=
  [("host", h), ("path", p), ("s", s), ("ts", ts)]

/-- The URL construction as the spec words it: signature =
hex(MD5("XGRlBW9FXlekgbPrRHuSiA" + p[1:] + s)) and final URL
"https://" + h + "/get-mp3/" + signature + "/" + ts + p. -/
def resolveUrlSpec (h p s ts : String) : String :=
  "https://" ++ h ++ "/get-mp3/" ++
    md5Hex ("XGRlBW9FXlekgbPrRHuSiA" ++ p.drop 1 ++ s) ++ "/" ++ ts ++ p

/-- `direct_link` in api.rs with its Rust result type `Result<String,
Error>` made explicit, distinguishing the three possible outcomes of the
body from the parsed signing page onward: `some (Except.ok url)` is a
returned URL, `some (Except.error e)` would be a propagated error value
(an `Err` return), and `none` is a panic.  In this part of the body the
only `Err` sources — the `?` operators — sit on the earlier network fetch;
field extraction uses `unwrap`, so a missing child is a panic, never an
`Err` return. -/
def direct_link_result (doc : List (String × String)) :
    Option (Except Unit String) := do
  let host ← get_child doc "host"
  let path ← get_child doc "path"
  let s ← get_child doc "s"
  let ts ← get_child doc "ts"
  let sign := md5Hex (SECRET ++ path.drop 1 ++ s)
  return Except.ok ("https://" ++ host ++ "/get-mp3/" ++ sign ++ "/" ++ ts ++ path)

/-- The playback engine state (`Player` in player.rs): the fetched track
list, the play-order queue of indices into it, the cursor, the optional
prefetch handle, and the audio sink.  A prefetch handle is recorded as the
id of the track whose download was spawned; the sink is modelled by its
buffered blobs (ids of the appended track downloads) and a generation
counter bumped each time the `Sink` instance is replaced.  Volume, speed
and the account are not modelled; no claim mentions them. -/
structure Player where
  tracks : List Track
  queue : List Nat
  queue_position : Nat
  next_track_task_handle : Option Nat
  sink_contents : List Nat
  sink_generation : Nat
  deriving DecidableEq, Repr

/-- `init_player` in player.rs: queue is the identity permutation
`0..tracks.len()`, cursor 0, no prefetch handle, a fresh empty sink.  The
fetched track list is an environment parameter. -/
def init_player (tracks : List Track) : Player :=
  { tracks := tracks, queue := List.range tracks.length, queue_position := 0,
    next_track_task_handle := none, sink_contents := [], sink_generation := 0 }

/-- `Player::next_track` in player.rs:
`&self.tracks[self.queue[self.queue_position]]`; each indexing panics when
out of range. -/
def next_track (p : Player) : Option Track :=
  (p.queue[p.queue_position]?).bind (fun q => p.tracks[q]?)

/-- `Player::track_after_n` in player.rs:
`&self.tracks[self.queue[self.queue_position + n]]`. -/
def track_after_n (p : Player) (n : Nat) : Option Track :=
  (p.queue[p.queue_position + n]?).bind (fun q => p.tracks[q]?)

/-- `Player::move_next` in player.rs: stop the sink and replace it with a
fresh one carrying over volume and speed; queue and cursor untouched. -/
def move_next (p : Player) : Player :=
  { p with sink_contents := [], sink_generation := p.sink_generation + 1 }

/-- `Player::move_prev` in player.rs: when `queue_position > 1`, step the
cursor back by two, drop the prefetch handle and replace the sink;
otherwise do nothing. -/
def move_prev (p : Player) : Player :=
  if p.queue_position > 1 then
    { p with queue_position := p.queue_position - 2,
             next_track_task_handle := none,
             sink_contents := [], sink_generation := p.sink_generation + 1 }
  else p

/-- `Player::reset` in player.rs. -/
def reset (p : Player) : Player :=
  { p with queue_position := 0, next_track_task_handle := none }

/-- Swap of two positions of a list; an out-of-range index leaves the list
unchanged (`slice::swap` is only reached with valid indices below). -/
def listSwap {α : Type} (l : List α) (i j : Nat) : List α :=
  match l[i]?, l[j]? with
  | some a, some b => (l.set i b).set j a
  | _, _ => l

/-- The loop of `rand`'s `SliceRandom::shuffle` (Fisher-Yates): for `i`
from `len - 1` down to `1`, swap position `i` with a drawn position in
`0..=i`.  The draw at step `i` is `rand i % (i + 1)`, the environment
function `rand` standing for `gen_range(0..=i)`. -/
def shuffleAux (rand : Nat → Nat) : Nat → List Nat → List Nat
  | 0, l => l
  | i + 1, l => shuffleAux rand i (listSwap l (i + 1) (rand (i + 1) % (i + 2)))

/-- `Vec::shuffle` on the queue. -/
def shuffleList (rand : Nat → Nat) (l : List Nat) : List Nat :=
  shuffleAux rand (l.length - 1) l

/-- `Player::shuffle_tracks` in player.rs: shuffle the queue in place, then
`reset`. -/
def shuffle_tracks (rand : Nat → Nat) (p : Player) : Player :=
  reset { p with queue := shuffleList rand p.queue }

/-- `load_playlist_into_player` in player.rs: replace the track list with
the playlist's tracks (an environment parameter standing for the fetch
result), `reset`, and set the queue to the identity permutation over the
new list. -/
def load_playlist_into_player (p : Player) (newTracks : List Track) : Player :=
  let p1 := reset { p with tracks := newTracks }
  { p1 with queue := List.range newTracks.length }

/-- `load_favorites_into_player` in player.rs: same shape as a playlist
load, with the re-fetched liked music tracks. -/
def load_favorites_into_player (p : Player) (newTracks : List Track) : Player :=
  let p1 := reset { p with tracks := newTracks }
  { p1 with queue := List.range newTracks.length }

/-- What one tick of `update_player` did: consumed the prefetch handle's
blob, resolved a track synchronously, scheduled a background download, or
nothing. -/
inductive TickAction where
  | consumedHandle (id : Nat)
  | syncResolve (id : Nat)
  | scheduled (id : Nat)
  | idle
  deriving DecidableEq, Repr

/-- `update_player` in player.rs, one tick.  If the sink is empty: with a
prefetch handle, await it and take its blob (no synchronous download);
without one, read `next_track().id` and download it synchronously.  Either
way the code then prints `"Playing: {}"` with `next_track()` — an indexing
plus a `Display` rendering, each of which can panic — appends the blob to
the sink and advances `queue_position` by one.  If the sink is non-empty
and no handle exists, spawn the download of `next_track().id` and retain
the handle.  Background downloads are assumed to complete with the blob of
the requested track (network failure inside a tick is not modelled; no
claim quantifies over it). -/
def update_player (p : Player) : Option (Player × TickAction) :=
  if p.sink_contents.isEmpty then
    match p.next_track_task_handle with
    | some hid => do
        let cur ← next_track p
        let _ ← trackFmt cur
        some ({ p with next_track_task_handle := none,
                       sink_contents := p.sink_contents ++ [hid],
                       queue_position := p.queue_position + 1 },
              TickAction.consumedHandle hid)
    | none => do
        let t ← next_track p
        let cur ← next_track p
        let _ ← trackFmt cur
        some ({ p with sink_contents := p.sink_contents ++ [t.id],
                       queue_position := p.queue_position + 1 },
              TickAction.syncResolve t.id)
  else
    match p.next_track_task_handle with
    | none => do
        let t ← next_track p
        some ({ p with next_track_task_handle := some t.id },
              TickAction.scheduled t.id)
    | some _ => some (p, TickAction.idle)

/-- The engine states reachable from startup through the operations of
player.rs: update ticks, sink drain by the audio device, and the
navigation/mutation commands dispatched by the main loop. -/
inductive Reachable : Player → Prop where
  | init (tracks : List Track) : Reachable (init_player tracks)
  | tick {p p' : Player} {a : TickAction} : Reachable p →
      update_player p = some (p', a) → Reachable p'
  | drain {p : Player} : Reachable p →
      Reachable { p with sink_contents := p.sink_contents.drop 1 }
  | next {p : Player} : Reachable p → Reachable (move_next p)
  | prev {p : Player} : Reachable p → Reachable (move_prev p)
  | shuffle {p : Player} (rand : Nat → Nat) : Reachable p →
      Reachable (shuffle_tracks rand p)
  | loadPlaylist {p : Player} (newTracks : List Track) : Reachable p →
      Reachable (load_playlist_into_player p newTracks)
  | loadFavorites {p : Player} (newTracks : List Track) : Reachable p →
      Reachable (load_favorites_into_player p newTracks)

/-! ## Concrete example values used by witnesses -/

/-- A music album reference. -/
def exAlbumMusic : AlbumInfo :=
  { id := 10, title := "Album M", meta_type := AlbumType.music,
    track_count := 12, likes_count := some 3 }

/-- A podcast album reference. -/
def exAlbumPodcast : AlbumInfo :=
  { id := 11, title := "Album P", meta_type := AlbumType.podcast,
    track_count := 8, likes_count := none }

/-- A track whose primary album category is music. -/
def exTrackM1 : Track :=
  { id := 1, title := "Song A", major := none, albums := [exAlbumMusic],
    artists := [{ id := 100, name := "Alice" }], duration := some 180000 }

/-- A track whose primary album category is podcast. -/
def exTrackP : Track :=
  { id := 2, title := "Episode", major := none, albums := [exAlbumPodcast],
    artists := [{ id := 101, name := "Host" }], duration := some 3600000 }

/-- A second track whose primary album category is music. -/
def exTrackM2 : Track :=
  { id := 3, title := "Song B", major := none,
    albums := [exAlbumMusic, exAlbumPodcast],
    artists := [{ id := 100, name := "Alice" }, { id := 102, name := "Bob" }],
    duration := none }

/-- A track with two artists, for the display witness. -/
def exTrack2 : Track :=
  { id := 4, title := "Song", major := none, albums := [exAlbumMusic],
    artists := [{ id := 100, name := "Alice" }, { id := 102, name := "Bob" }],
    duration := some 1000 }

/-- A send-outcome sequence with one transport failure then a good
response. -/
def exNet : Nat → SendOutcome :=
  fun i => if i = 0 then SendOutcome.err else SendOutcome.ok (some exTrackM1)

/-- A player mid-playback: cursor 5, a prefetch handle, one buffered blob. -/
def exPlayer : Player :=
  { tracks := [exTrackM1, exTrackP, exTrackM2, exTrackM1, exTrackP, exTrackM2],
    queue := [0, 1, 2, 3, 4, 5], queue_position := 5,
    next_track_task_handle := some 3, sink_contents := [7],
    sink_generation := 0 }

/-- A player whose cursor has been advanced past the final queue entry,
with an empty sink. -/
def exPlayerEnd : Player :=
  { tracks := [exTrackM1, exTrackP], queue := [1, 0], queue_position := 2,
    next_track_task_handle := none, sink_contents := [],
    sink_generation := 0 }

/-- A player with an empty sink and an outstanding prefetch handle. -/
def exPlayerEmptySink : Player :=
  { tracks := [exTrackM1, exTrackP, exTrackM2], queue := [2, 0, 1],
    queue_position := 1, next_track_task_handle := some 9,
    sink_contents := [], sink_generation := 0 }

/-! ## General lemmas -/

set_option maxRecDepth 100000 in
/-- RFC 1321 test vector: the embedded MD5 digests "abc" correctly. -/
theorem md5Hex_abc : md5Hex "abc" = "900150983cd24fb0d6963f7d28e17f72" := by
  decide

/-- An accumulated formatter write can be pulled out of the fold. -/
lemma foldl_write_pull (g : Nat → String) (L : List Nat) :
    ∀ x : String, L.foldl (fun acc i => acc ++ g i) x =
      x ++ L.foldl (fun acc i => acc ++ g i) "" := by
  induction L with
  | nil => intro x; exact (String.append_empty x).symm
  | cons a L ih =>
      intro x
      simp only [List.foldl_cons]
      rw [ih (x ++ g a), ih ("" ++ g a), String.empty_append, String.append_assoc]

/-- Unrolling the writer loop of `Artists::fmt` by one entry. -/
lemma fmtLoop_cons_cons (n m : String) (rest : List String) :
    fmtLoop (n :: m :: rest) = n ++ ", " ++ fmtLoop (m :: rest) := by
  unfold fmtLoop
  have hlen : (n :: m :: rest).length - 1 = rest.length + 1 := by simp
  have hlen2 : (m :: rest).length - 1 = rest.length := by simp
  rw [hlen, hlen2, List.range_succ_eq_map]
  simp only [List.foldl_cons, List.foldl_map, Nat.succ_eq_add_one,
    List.getD_cons_succ, List.getD_cons_zero, String.empty_append]
  rw [foldl_write_pull, String.append_assoc]

/-- The writer loop of `Artists::fmt` produces the comma-separated name
list. -/
lemma fmtLoop_eq_body : ∀ ns : List String, ns ≠ [] → fmtLoop ns = artistsBody ns
  | [], h => absurd rfl h
  | [n], _ => by
      show "" ++ ([n].getD 0 "") = artistsBody [n]
      rw [String.empty_append]
      rfl
  | n :: m :: rest, _ => by
      rw [fmtLoop_cons_cons, fmtLoop_eq_body (m :: rest) (by simp)]
      rfl

/-! ## Claim theorems -/

/-- C10: formatting a track for display is defined only for tracks with at
least one artist.  With a non-empty artist list it yields the title
followed by the parenthesized comma-separated artist names; with an empty
artist list the `len() - 1` index computation underflows and the formatter
is undefined (a panic, modelled as `none`). -/
theorem track_display_shape (t : Track) :
    (t.artists ≠ [] →
      trackFmt t = some (t.title ++ " " ++
        ("(" ++ artistsBody (t.artists.map ArtistInfo.name) ++ ")"))) ∧
    (t.artists = [] → trackFmt t = none) := by
  constructor
  · intro h
    cases ha : t.artists with
    | nil => exact absurd ha h
    | cons a as =>
        have hf : artistsFmt (a :: as) =
            some ("(" ++ fmtLoop ((a :: as).map ArtistInfo.name) ++ ")") := rfl
        unfold trackFmt
        rw [ha, hf, fmtLoop_eq_body _ (by simp)]
        rfl
  · intro h
    unfold trackFmt artistsFmt
    rw [h]
    rfl

/-- Witness for C10 at a concrete two-artist track. -/
theorem track_display_shape_witness :
    trackFmt exTrack2 = some "Song (Alice, Bob)" := by
  have h := (track_display_shape exTrack2).1 (by decide)
  rw [h]
  rfl

/-- C1: for a signing descriptor with host `h`, path `p` beginning with the
separator character, token `s` and timestamp `ts`, the resolver computes
the signature `hex(MD5("XGRlBW9FXlekgbPrRHuSiA" + p[1:] + s))` — `p[1:]`
dropping the leading separator — and builds the final URL exactly as
`"https://" + h + "/get-mp3/" + signature + "/" + ts + p`. -/
theorem direct_link_builds_signed_url (h p s ts : String)
    (_hsep : p.data.head? = some '/') :
    direct_link (signingDoc h p s ts) = some (resolveUrlSpec h p s ts) := rfl

set_option maxRecDepth 100000 in
/-- Witness for C1 at the spec's example descriptor, with the signature
evaluated to its concrete hex digits. -/
theorem direct_link_builds_signed_url_witness :
    direct_link (signingDoc "h" "/p" "sval" "t") =
      some (resolveUrlSpec "h" "/p" "sval" "t") ∧
    resolveUrlSpec "h" "/p" "sval" "t" =
      "https://h/get-mp3/ec18c22213b779cb262ef7d7077f6f78/t/p" :=
  ⟨direct_link_builds_signed_url "h" "/p" "sval" "t" (by decide), by decide⟩

/-- C8 counterexample: at the concrete signing-page document carrying only
a host field (path, s, ts missing), resolution does not abort with a
propagated error value — no `Err` is returned (the sole error payload
being `()`); the outcome is a panic (`none`). -/
theorem direct_link_missing_field_no_error_value :
    direct_link_result [("host", "h")] ≠ some (Except.error ()) ∧
    direct_link_result [("host", "h")] = none := by
  have h1 : direct_link_result [("host", "h")] = none := rfl
  refine ⟨?_, h1⟩
  rw [h1]
  exact fun h => Option.noConfusion h

/-- C8 (amended): a signing-page document from which any of the four
required fields (host, path, s, ts) is missing makes that track's
resolution abort via the `unwrap` panic on the absent child — producing
neither a URL nor a propagated error value — rather than any other
outcome. -/
theorem direct_link_missing_field_panics (doc : List (String × String))
    (hmiss : get_child doc "host" = none ∨ get_child doc "path" = none ∨
      get_child doc "s" = none ∨ get_child doc "ts" = none) :
    direct_link_result doc = none ∧
    direct_link_result doc ≠ some (Except.error ()) := by
  have h1 : direct_link_result doc = none := by
    unfold direct_link_result
    rcases hmiss with hm | hm | hm | hm <;>
      cases hh : get_child doc "host" <;>
        cases hp : get_child doc "path" <;>
          cases hs : get_child doc "s" <;>
            cases ht : get_child doc "ts" <;>
              simp_all
  refine ⟨h1, ?_⟩
  rw [h1]
  exact fun h => Option.noConfusion h

/-- Witness for the amended C8: a document carrying only a timestamp field
(host missing) panics, propagating no error value. -/
theorem direct_link_missing_field_panics_witness :
    direct_link_result [("ts", "t")] = none ∧
    direct_link_result [("ts", "t")] ≠ some (Except.error ()) :=
  direct_link_missing_field_panics [("ts", "t")] (Or.inl rfl)

/-- C5: every queue replacement — shuffle, playlist load, favorites
reload — leaves the engine with cursor 0 and no prefetch handle, regardless
of the prior position, handle, and queue. -/
theorem set_queue_resets (p : Player) (rand : Nat → Nat)
    (newTracks : List Track) :
    ((shuffle_tracks rand p).queue_position = 0 ∧
      (shuffle_tracks rand p).next_track_task_handle = none) ∧
    ((load_playlist_into_player p newTracks).queue_position = 0 ∧
      (load_playlist_into_player p newTracks).next_track_task_handle = none) ∧
    ((load_favorites_into_player p newTracks).queue_position = 0 ∧
      (load_favorites_into_player p newTracks).next_track_task_handle = none) :=
  ⟨⟨rfl, rfl⟩, ⟨rfl, rfl⟩, ⟨rfl, rfl⟩⟩

/-- C6: `move_prev` steps the cursor back by exactly two when it is at
least 2 — in that case also dropping any outstanding prefetch handle and
replacing the audio sink — and otherwise leaves the state unchanged, so the
cursor never underflows. -/
theorem move_prev_steps_back_two (p : Player) :
    (2 ≤ p.queue_position →
      (move_prev p).queue_position = p.queue_position - 2 ∧
      (move_prev p).next_track_task_handle = none ∧
      (move_prev p).sink_generation = p.sink_generation + 1 ∧
      (move_prev p).sink_contents = []) ∧
    (p.queue_position < 2 → move_prev p = p) := by
  constructor
  · intro h2
    unfold move_prev
    rw [if_pos (by omega)]
    exact ⟨rfl, rfl, rfl, rfl⟩
  · intro h2
    unfold move_prev
    rw [if_neg (by omega)]

/-- Witness for C6 at a cursor-5 player holding a live prefetch handle. -/
theorem move_prev_steps_back_two_witness :
    (move_prev exPlayer).queue_position = exPlayer.queue_position - 2 ∧
    (move_prev exPlayer).next_track_task_handle = none ∧
    (move_prev exPlayer).sink_generation = exPlayer.sink_generation + 1 ∧
    (move_prev exPlayer).sink_contents = [] :=
  (move_prev_steps_back_two exPlayer).1 (by decide)

/-- C7: for an input list of liked tracks each carrying at least one album
reference, `liked_music_tracks` returns exactly the tracks whose primary
(first) album reference has category music, preserving their original
relative order (the filtered sublist). -/
theorem liked_music_tracks_filters (tracks : List Track)
    (hall : ∀ t ∈ tracks, t.albums ≠ []) :
    liked_music_tracks tracks = some (tracks.filter primaryCategoryMusicSpec) := by
  induction tracks with
  | nil => rfl
  | cons t rest ih =>
      have ht : t.albums ≠ [] := hall t (List.mem_cons_self t rest)
      have hrest : ∀ x ∈ rest, x.albums ≠ [] :=
        fun x hx => hall x (List.mem_cons_of_mem _ hx)
      cases halb : t.albums with
      | nil => exact absurd halb ht
      | cons a as =>
          have hpm : primaryIsMusic t = some (a.meta_type == AlbumType.music) := by
            unfold primaryIsMusic
            rw [halb]
          have hspec : primaryCategoryMusicSpec t = (a.meta_type == AlbumType.music) := by
            unfold primaryCategoryMusicSpec
            rw [halb]
            rfl
          cases hmt : (a.meta_type == AlbumType.music) <;>
            simp [liked_music_tracks, hpm, ih hrest, List.filter_cons, hspec, hmt]

/-- Witness for C7: the spec's music/podcast/music example keeps exactly
the two music tracks in order. -/
theorem liked_music_tracks_filters_witness :
    liked_music_tracks [exTrackM1, exTrackP, exTrackM2] =
      some [exTrackM1, exTrackM2] := by
  have h := liked_music_tracks_filters [exTrackM1, exTrackP, exTrackM2] (by decide)
  rw [h]
  rfl

/-- Budget exhausted by transport failures at every attempt: the saved
error is returned, all attempts consumed. -/
lemma fetch_track_go_all_err (net : Nat → SendOutcome) :
    ∀ (left i : Nat), (∀ j, j < left → net (i + j) = SendOutcome.err) →
      fetch_track_go net (some ()) i left = (some (Except.error ()), i + left)
  | 0, _, _ => rfl
  | l + 1, i, h => by
      have h0 : net i = SendOutcome.err := by simpa using h 0 (by omega)
      have hrec := fetch_track_go_all_err net l (i + 1) (fun j hj => by
        have := h (j + 1) (by omega)
        rwa [show i + (j + 1) = i + 1 + j by omega] at this)
      have harith : i + 1 + l = i + (l + 1) := by omega
      rw [harith] at hrec
      simp only [fetch_track_go, h0, hrec]

/-- A run of transport failures followed by a well-formed response: the
track is returned, with one attempt per iteration consumed. -/
lemma fetch_track_go_success (net : Nat → SendOutcome) (t : Track) :
    ∀ (left i : Nat) (error : Option Unit), 1 ≤ left →
      (∀ j, j < left - 1 → net (i + j) = SendOutcome.err) →
      net (i + (left - 1)) = SendOutcome.ok (some t) →
      fetch_track_go net error i left = (some (Except.ok t), i + left)
  | 0, _, _, h1, _, _ => absurd h1 (by omega)
  | 1, i, _, _, _, hok => by
      have hok' : net i = SendOutcome.ok (some t) := by simpa using hok
      simp only [fetch_track_go, hok']
  | l + 2, i, _, _, herr, hok => by
      have h0 : net i = SendOutcome.err := by simpa using herr 0 (by omega)
      have hrec := fetch_track_go_success net t (l + 1) (i + 1) (some ()) (by omega)
        (fun j hj => by
          have := herr (j + 1) (by omega)
          rwa [show i + (j + 1) = i + 1 + j by omega] at this)
        (by
          have harg : i + (l + 2 - 1) = i + 1 + (l + 1 - 1) := by omega
          rwa [harg] at hok)
      have harith : i + 1 + (l + 1) = i + (l + 2) := by omega
      rw [harith] at hrec
      simp only [fetch_track_go, h0]
      simp only [fetch_track_go] at hrec
      exact hrec

/-- A malformed response body aborts at that attempt: no retry happens,
whatever budget remains. -/
lemma fetch_track_go_malformed (net : Nat → SendOutcome) :
    ∀ (k left i : Nat) (error : Option Unit), k < left →
      (∀ j, j < k → net (i + j) = SendOutcome.err) →
      net (i + k) = SendOutcome.ok none →
      fetch_track_go net error i left = (none, i + k + 1)
  | 0, left, i, _, hk, _, hmal => by
      cases left with
      | zero => omega
      | succ l =>
          have hmal' : net i = SendOutcome.ok none := by simpa using hmal
          simp only [fetch_track_go, hmal']
  | k + 1, left, i, _, hk, herr, hmal => by
      cases left with
      | zero => omega
      | succ l =>
          have h0 : net i = SendOutcome.err := by simpa using herr 0 (by omega)
          have hrec := fetch_track_go_malformed net k l (i + 1) (some ()) (by omega)
            (fun j hj => by
              have := herr (j + 1) (by omega)
              rwa [show i + (j + 1) = i + 1 + j by omega] at this)
            (by
              have harg : i + (k + 1) = i + 1 + k := by omega
              rwa [harg] at hmal)
          have harith : i + 1 + k + 1 = i + (k + 1) + 1 := by omega
          rw [harith] at hrec
          simp only [fetch_track_go, h0, hrec]

/-- C3: with attempt budget `N ≥ 1`, `fetch_track` succeeds consuming
exactly `N` attempts when the first `N - 1` send attempts fail at the
transport level and the `N`-th returns a well-formed response; it returns
the transport error after consuming all `N` attempts when every attempt
fails; and it retries only on transport failure — a malformed response body
at any attempt aborts right there (the `unwrap` panic, modelled as `none`)
with no further attempt. -/
theorem fetch_track_retry_law (net : Nat → SendOutcome) (N : Nat) (hN : 1 ≤ N) :
    ((∀ i, i < N - 1 → net i = SendOutcome.err) →
      ∀ t, net (N - 1) = SendOutcome.ok (some t) →
        fetch_track net (some N) = (some (Except.ok t), N)) ∧
    ((∀ i, i < N → net i = SendOutcome.err) →
      fetch_track net (some N) = (some (Except.error ()), N)) ∧
    (∀ k, k < N → (∀ i, i < k → net i = SendOutcome.err) →
      net k = SendOutcome.ok none →
      fetch_track net (some N) = (none, k + 1)) := by
  refine ⟨fun herr t hok => ?_, fun herr => ?_, fun k hk herr hmal => ?_⟩
  · have h := fetch_track_go_success net t N 0 none hN
      (fun j hj => by simpa using herr j hj) (by simpa using hok)
    simpa [fetch_track] using h
  · obtain ⟨M, rfl⟩ : ∃ M, N = M + 1 := ⟨N - 1, by omega⟩
    have h0 : net 0 = SendOutcome.err := herr 0 (by omega)
    have h := fetch_track_go_all_err net M 1 (fun j hj => by
      have hj1 := herr (j + 1) (by omega)
      rwa [show (1 : Nat) + j = j + 1 by omega])
    have harith : 1 + M = M + 1 := by omega
    rw [harith] at h
    unfold fetch_track
    simp only [Option.getD_some, fetch_track_go, h0, h]
  · have h := fetch_track_go_malformed net k N 0 none hk
      (fun j hj => by simpa using herr j hj) (by simpa using hmal)
    simpa [fetch_track] using h

/-- Witness for C3: one transport failure then a good response with budget
2 — success consuming exactly 2 attempts. -/
theorem fetch_track_retry_law_witness :
    fetch_track exNet (some 2) = (some (Except.ok exTrackM1), 2) := by
  have h := fetch_track_retry_law exNet 2 (by decide)
  exact h.1
    (fun i hi => by
      have hi0 : i = 0 := by omega
      subst hi0
      rfl)
    exTrackM1 rfl

/-- A track with at least one artist always renders. -/
lemma trackFmt_isSome (t : Track) (h : t.artists ≠ []) :
    ∃ s, trackFmt t = some s := by
  cases ha : t.artists with
  | nil => exact absurd ha h
  | cons a as =>
      refine ⟨t.title ++ " " ++ ("(" ++ fmtLoop ((a :: as).map ArtistInfo.name) ++ ")"), ?_⟩
      unfold trackFmt artistsFmt
      rw [ha]
      rfl

/-- C2: at any tick where the sink is empty, if a prefetch handle exists
the engine consumes that handle's blob — the tick's action is
`consumedHandle`, never a synchronous resolve for that track — and if no
handle exists it resolves the current track synchronously; in either
branch the blob is fed to the sink and the cursor advances by exactly one,
never decremented or skipped.  (The hypotheses make the tick total: the
cursor is on a valid queue entry and the current track renders.) -/
theorem tick_empty_sink (p : Player) (t : Track)
    (hcur : next_track p = some t) (hart : t.artists ≠ [])
    (hempty : p.sink_contents = []) :
    (∀ hid, p.next_track_task_handle = some hid →
      update_player p =
        some ({ p with next_track_task_handle := none,
                       sink_contents := [hid],
                       queue_position := p.queue_position + 1 },
              TickAction.consumedHandle hid)) ∧
    (p.next_track_task_handle = none →
      update_player p =
        some ({ p with sink_contents := [t.id],
                       queue_position := p.queue_position + 1 },
              TickAction.syncResolve t.id)) := by
  obtain ⟨str, hfmt⟩ := trackFmt_isSome t hart
  have hemptyb : p.sink_contents.isEmpty = true := by rw [hempty]; rfl
  constructor
  · intro hid hh
    simp [update_player, hemptyb, hh, hcur, hfmt, hempty]
  · intro hh
    simp [update_player, hemptyb, hh, hcur, hfmt, hempty]

/-- Witness for C2: an empty-sink tick with a live handle consumes it and
advances the cursor from 1 to 2. -/
theorem tick_empty_sink_witness :
    update_player exPlayerEmptySink =
      some ({ exPlayerEmptySink with
                next_track_task_handle := none,
                sink_contents := [9],
                queue_position := exPlayerEmptySink.queue_position + 1 },
            TickAction.consumedHandle 9) :=
  (tick_empty_sink exPlayerEmptySink exTrackM1 rfl (by decide) rfl).1 9 rfl

/-- C9: the queue lookups and the tick step are total only when the cursor
(plus offset) indexes inside the queue: with `position + n < len(queue)`
and in-range queue entries, `track_after_n` is defined; once the cursor has
been advanced past the final queue entry (`position = len(queue)`) every
lookup indexes out of range and the next empty-sink tick is undefined (a
panic, modelled as `none`) — no wrap-around and no stop happens. -/
theorem lookup_totality (p : Player) (n : Nat) :
    (p.queue_position + n < p.queue.length →
      (∀ q ∈ p.queue, q < p.tracks.length) →
      ∃ t, track_after_n p n = some t) ∧
    (p.queue.length ≤ p.queue_position + n → track_after_n p n = none) ∧
    (p.queue_position = p.queue.length →
      next_track p = none ∧
      (p.sink_contents = [] → update_player p = none)) := by
  refine ⟨fun hlt hq => ?_, fun hge => ?_, fun hend => ?_⟩
  · have h1 : p.queue[p.queue_position + n]? = some (p.queue[p.queue_position + n]) :=
      List.getElem?_eq_getElem hlt
    have h2 : p.queue[p.queue_position + n] < p.tracks.length :=
      hq _ (List.getElem_mem hlt)
    refine ⟨p.tracks[p.queue[p.queue_position + n]], ?_⟩
    unfold track_after_n
    rw [h1]
    exact List.getElem?_eq_getElem h2
  · have h1 : p.queue[p.queue_position + n]? = none := List.getElem?_eq_none hge
    unfold track_after_n
    rw [h1]
    rfl
  · have h1 : p.queue[p.queue_position]? = none :=
      List.getElem?_eq_none (by omega)
    have hnt : next_track p = none := by
      unfold next_track
      rw [h1]
      rfl
    refine ⟨hnt, fun hempty => ?_⟩
    have hemptyb : p.sink_contents.isEmpty = true := by rw [hempty]; rfl
    cases hh : p.next_track_task_handle <;>
      simp [update_player, hemptyb, hh, hnt]

/-- Witness for C9 at a player whose cursor equals the queue length. -/
theorem lookup_totality_witness :
    next_track exPlayerEnd = none ∧ update_player exPlayerEnd = none := by
  have h := (lookup_totality exPlayerEnd 0).2.2 rfl
  exact ⟨h.1, h.2 rfl⟩

/-- Prepending the element read at position `k` of a list whose position
`k` is overwritten by `a` permutes prepending `a` to the original. -/
lemma set_cons_perm {α : Type} : ∀ (t : List α) (k : Nat) (a b : α),
    t[k]? = some b → List.Perm (b :: t.set k a) (a :: t)
  | [], k, _, _, h => by simp at h
  | c :: t, 0, a, _, h => by
      simp at h
      subst h
      exact List.Perm.swap a c t
  | c :: t, k + 1, a, b, h => by
      simp only [List.getElem?_cons_succ] at h
      exact List.Perm.trans (List.Perm.swap c b _)
        (List.Perm.trans (List.Perm.cons c (set_cons_perm t k a b h))
          (List.Perm.swap a c t))

/-- Writing each of two read positions with the other's element is a
permutation. -/
lemma set_set_perm {α : Type} : ∀ (l : List α) (i j : Nat) (a b : α),
    l[i]? = some a → l[j]? = some b → List.Perm ((l.set i b).set j a) l
  | [], _, _, _, _, ha, _ => by simp at ha
  | c :: t, 0, 0, _, _, ha, hb => by
      simp at ha hb
      subst ha
      subst hb
      exact List.Perm.refl _
  | c :: t, 0, j + 1, _, b, ha, hb => by
      simp at ha
      simp only [List.getElem?_cons_succ] at hb
      subst ha
      exact set_cons_perm t j c b hb
  | c :: t, i + 1, 0, a, _, ha, hb => by
      simp only [List.getElem?_cons_succ] at ha
      simp at hb
      subst hb
      exact set_cons_perm t i c a ha
  | c :: t, i + 1, j + 1, a, b, ha, hb => by
      simp only [List.getElem?_cons_succ] at ha hb
      exact List.Perm.cons c (set_set_perm t i j a b ha hb)

/-- `slice::swap` permutes the list. -/
lemma listSwap_perm {α : Type} (l : List α) (i j : Nat) :
    List.Perm (listSwap l i j) l := by
  unfold listSwap
  cases hi : l[i]? with
  | none => exact List.Perm.refl l
  | some a =>
      cases hj : l[j]? with
      | none => exact List.Perm.refl l
      | some b => exact set_set_perm l i j a b hi hj

/-- Every Fisher-Yates pass permutes its input. -/
lemma shuffleAux_perm (rand : Nat → Nat) :
    ∀ (n : Nat) (l : List Nat), List.Perm (shuffleAux rand n l) l
  | 0, l => List.Perm.refl l
  | n + 1, l =>
      List.Perm.trans (shuffleAux_perm rand n _)
        (listSwap_perm l (n + 1) (rand (n + 1) % (n + 2)))

/-- `Vec::shuffle` yields a permutation of the queue. -/
lemma shuffleList_perm (rand : Nat → Nat) (l : List Nat) :
    List.Perm (shuffleList rand l) l :=
  shuffleAux_perm rand (l.length - 1) l

/-- A tick never changes the queue or the track list. -/
lemma update_player_preserves {p p' : Player} {a : TickAction}
    (h : update_player p = some (p', a)) :
    p'.queue = p.queue ∧ p'.tracks = p.tracks := by
  unfold update_player at h
  by_cases he : p.sink_contents.isEmpty
  · rw [if_pos he] at h
    cases hh : p.next_track_task_handle with
    | some hid =>
        rw [hh] at h
        cases hc : next_track p with
        | none => rw [hc] at h; simp at h
        | some t =>
            rw [hc] at h
            simp only [Option.bind_eq_bind, Option.some_bind] at h
            cases hf : trackFmt t with
            | none => rw [hf] at h; simp at h
            | some s =>
                rw [hf] at h
                simp only [Option.bind_eq_bind, Option.some_bind, Option.some.injEq, Prod.mk.injEq] at h
                obtain ⟨h1, _⟩ := h
                rw [← h1]
                exact ⟨rfl, rfl⟩
    | none =>
        rw [hh] at h
        cases hc : next_track p with
        | none => rw [hc] at h; simp at h
        | some t =>
            rw [hc] at h
            simp only [Option.bind_eq_bind, Option.some_bind] at h
            cases hf : trackFmt t with
            | none => rw [hf] at h; simp at h
            | some s =>
                rw [hf] at h
                simp only [Option.bind_eq_bind, Option.some_bind, Option.some.injEq, Prod.mk.injEq] at h
                obtain ⟨h1, _⟩ := h
                rw [← h1]
                exact ⟨rfl, rfl⟩
  · rw [if_neg he] at h
    cases hh : p.next_track_task_handle with
    | some hid =>
        rw [hh] at h
        simp only [Option.some.injEq, Prod.mk.injEq] at h
        obtain ⟨h1, _⟩ := h
        rw [← h1]
        exact ⟨rfl, rfl⟩
    | none =>
        rw [hh] at h
        cases hc : next_track p with
        | none => rw [hc] at h; simp at h
        | some t =>
            rw [hc] at h
            simp only [Option.bind_eq_bind, Option.some_bind, Option.some.injEq, Prod.mk.injEq] at h
            obtain ⟨h1, _⟩ := h
            rw [← h1]
            exact ⟨rfl, rfl⟩

/-- C4: in every reachable engine state the queue is a permutation of
`[0, len(tracks))` — a bijection over the track indices.  In particular a
shuffle yields a queue that is a permutation of the previous queue (same
multiset of indices, same length), and a playlist or favorites load yields
a queue that is a permutation of `[0, len(new tracks))`. -/
theorem queue_is_bijection (p : Player) (hr : Reachable p) :
    List.Perm p.queue (List.range p.tracks.length) ∧
    (∀ rand, List.Perm (shuffle_tracks rand p).queue p.queue ∧
      (shuffle_tracks rand p).queue.length = p.queue.length) ∧
    (∀ newTracks : List Track,
      List.Perm (load_playlist_into_player p newTracks).queue
        (List.range newTracks.length) ∧
      List.Perm (load_favorites_into_player p newTracks).queue
        (List.range newTracks.length)) := by
  refine ⟨?_,
    fun rand => ⟨shuffleList_perm rand p.queue,
      (shuffleList_perm rand p.queue).length_eq⟩,
    fun newTracks => ⟨List.Perm.refl _, List.Perm.refl _⟩⟩
  induction hr with
  | init tracks => exact List.Perm.refl _
  | tick rp heq ih =>
      obtain ⟨hq, ht⟩ := update_player_preserves heq
      rw [hq, ht]
      exact ih
  | drain rp ih => exact ih
  | next rp ih => exact ih
  | prev rp ih =>
      unfold move_prev
      split
      · exact ih
      · exact ih
  | shuffle rand rp ih => exact List.Perm.trans (shuffleList_perm rand _) ih
  | loadPlaylist newTracks rp ih => exact List.Perm.refl _
  | loadFavorites newTracks rp ih => exact List.Perm.refl _

/-- Witness for C4 at the freshly initialized two-track player. -/
theorem queue_is_bijection_witness :
    List.Perm (init_player [exTrackM1, exTrackP]).queue
      (List.range (init_player [exTrackM1, exTrackP]).tracks.length) :=
  (queue_is_bijection _ (Reachable.init [exTrackM1, exTrackP])).1

end YMusic


